import Mathlib

/-!
Shallow embedding of the Flappy Soup game core (single React/TS source file).
Player, pipe (fork) and session arithmetic is exact rational arithmetic;
the animated soup surface uses `Real.sin`, mirroring `Math.sin`.
State updates of the per-frame `gameLoop` are embedded as a function on a
`Session` record; the random values a tick consumes are passed in
explicitly as a `TickRand` record.
-/

/-- Constant `GAME_WIDTH` from the source. -/
def GAME_WIDTH : ℚ := 800

/-- Constant `GAME_HEIGHT` from the source. -/
def GAME_HEIGHT : ℚ := 600

/-- Constant `PLAYER_SIZE` from the source. -/
def PLAYER_SIZE : ℚ := 40

/-- Constant `GRAVITY` from the source. -/
def GRAVITY : ℚ := 0.5

/-- Constant `JUMP_FORCE` from the source. -/
def JUMP_FORCE : ℚ := -10

/-- Constant `MAX_FALL_SPEED` from the source. -/
def MAX_FALL_SPEED : ℚ := 12

/-- Constant `PIPE_WIDTH` from the source. -/
def PIPE_WIDTH : ℚ := 80

/-- Constant `PIPE_GAP` from the source. -/
def PIPE_GAP : ℚ := 280

/-- Constant `SPAWN_INTERVAL` from the source (a frame count, so a natural). -/
def SPAWN_INTERVAL : ℕ := 140

/-- Constant `GAME_SPEED` from the source. -/
def GAME_SPEED : ℚ := 3.9

/-- Constant `SOUP_BASE_Y = GAME_HEIGHT - 60` from the source. -/
def SOUP_BASE_Y : ℚ := GAME_HEIGHT - 60

/-- The player record held in `gameDataRef.current.player`. -/
structure Player where
  x : ℚ
  y : ℚ
  width : ℚ
  height : ℚ
  velocity : ℚ
  deriving DecidableEq

/-- The `Pipe` interface of the source: a rectangle plus the `passed` flag. -/
structure Pipe where
  x : ℚ
  y : ℚ
  width : ℚ
  height : ℚ
  passed : Bool
  deriving DecidableEq

/-- The `Bubble` interface of the source; its motion mixes in `Math.sin`,
so its coordinates live in the reals. -/
structure Bubble where
  x : ℝ
  y : ℝ
  r : ℝ
  vy : ℝ
  wobble : ℝ

/-- The mutable record `gameDataRef.current`. -/
structure GameData where
  player : Player
  pipes : List Pipe
  bubbles : List Bubble
  frameCount : ℕ

/-- The `gameState` React state: 'menu' | 'playing' | 'gameOver'. -/
inductive Phase where
  | menu
  | playing
  | gameOver
  deriving DecidableEq

/-- One session snapshot: the React state (`gameState`, `score`, `highScore`)
together with the game data ref. -/
structure Session where
  phase : Phase
  score : ℕ
  highScore : ℕ
  game : GameData

/-- The `Math.random()` draws one tick can consume: one for the pipe height
and four for a freshly spawned bubble.  Each is a number in [0, 1). -/
structure TickRand where
  pipeR : ℚ
  bubX : ℚ
  bubR : ℚ
  bubVy : ℚ
  bubW : ℚ
  deriving DecidableEq

/-- All five random draws lie in [0, 1), as `Math.random()` guarantees. -/
def TickRand.Valid (o : TickRand) : Prop :=
  0 ≤ o.pipeR ∧ o.pipeR < 1 ∧ 0 ≤ o.bubX ∧ o.bubX < 1 ∧ 0 ≤ o.bubR ∧
    o.bubR < 1 ∧ 0 ≤ o.bubVy ∧ o.bubVy < 1 ∧ 0 ≤ o.bubW ∧ o.bubW < 1

instance : DecidablePred TickRand.Valid := fun o => by
  unfold TickRand.Valid; infer_instance

/-- Function `soupSurfaceYAt` from the source: baseline plus two sine waves,
amplitudes 10 and 6, spatial frequencies 0.015 and 0.035, temporal
frequencies 0.06 and 0.04, the second temporal phase subtracted. -/
noncomputable def soupSurfaceYAt (x frame : ℝ) : ℝ :=
  (SOUP_BASE_Y : ℝ) + Real.sin (x * 0.015 + frame * 0.06) * 10 +
    Real.sin (x * 0.035 - frame * 0.04) * 6

/-- The player update of the game loop: `velocity += GRAVITY`, clamp to
`MAX_FALL_SPEED`, then `y += velocity`. -/
def integratePlayer (p : Player) : Player :=
  let v := p.velocity + GRAVITY
  let v2 := if v > MAX_FALL_SPEED then MAX_FALL_SPEED else v
  { p with velocity := v2, y := p.y + v2 }

/-- The paired fork spawn: a top rectangle at y = 0 of random height and a
bottom rectangle below the gap, both at `x = GAME_WIDTH`; `r` stands for the
tick's `Math.random()` value. -/
def spawnPair (r : ℚ) : List Pipe :=
  let pipeHeight := r * (GAME_HEIGHT - PIPE_GAP - 200) + 100
  [{ x := GAME_WIDTH, y := 0, width := PIPE_WIDTH, height := pipeHeight,
     passed := false },
   { x := GAME_WIDTH, y := pipeHeight + PIPE_GAP, width := PIPE_WIDTH,
     height := GAME_HEIGHT - pipeHeight - PIPE_GAP, passed := false }]

/-- Conditional spawn: on frames with `frameCount % SPAWN_INTERVAL == 0` the
pair is pushed onto the pipe list. -/
def spawnPipes (fc : ℕ) (r : ℚ) (l : List Pipe) : List Pipe :=
  if fc % SPAWN_INTERVAL = 0 then l ++ spawnPair r else l

/-- The body of the pipe-filter callback, minus the retention decision:
translate the pipe left by `GAME_SPEED`, then flag-and-score the top pipe
once its right edge is strictly left of the player's x.  Returns the
updated pipe and whether the score was incremented. -/
def pipeStep (px : ℚ) (p : Pipe) : Pipe × Bool :=
  let q : Pipe := { p with x := p.x - GAME_SPEED }
  if q.passed = false ∧ q.y = 0 ∧ q.x + q.width < px then
    ({ q with passed := true }, true)
  else
    (q, false)

/-- The axis-aligned rectangle overlap test of the fork-collision loop. -/
def forkHit (pl : Player) (p : Pipe) : Bool :=
  decide (pl.x < p.x + p.width ∧ pl.x + pl.width > p.x ∧
    pl.y < p.y + p.height ∧ pl.y + pl.height > p.y)

/-- A freshly spawned bubble, from the four random draws of the tick. -/
noncomputable def mkBubble (o : TickRand) : Bubble :=
  { x := (o.bubX : ℝ) * (GAME_WIDTH : ℝ)
    y := (GAME_HEIGHT : ℝ) - 6
    r := 2 + (o.bubR : ℝ) * 5
    vy := -0.6 - (o.bubVy : ℝ) * 0.9
    wobble := (o.bubW : ℝ) * Real.pi * 2 }

/-- Conditional bubble spawn: every 12 frames, capped at 40 live bubbles. -/
noncomputable def spawnBubbles (fc : ℕ) (o : TickRand) (bs : List Bubble) :
    List Bubble :=
  if fc % 12 = 0 ∧ bs.length < 40 then bs ++ [mkBubble o] else bs

/-- The bubble motion inside the bubble-filter callback: rise by `vy`,
wobble horizontally by a sine of the frame count and phase. -/
noncomputable def bubbleStep (fc : ℕ) (b : Bubble) : Bubble :=
  { b with y := b.y + b.vy,
           x := b.x + Real.sin ((fc : ℝ) * 0.12 + b.wobble) * 0.25 }

open Classical in
/-- The bubble retention predicate: keep the bubble while it is still more
than 2 units under the live soup surface at its own x. -/
noncomputable def bubbleKeep (fc : ℕ) (b : Bubble) : Bool :=
  decide (b.y + b.r < soupSurfaceYAt b.x (fc : ℝ) - 2)

/-- The bubble filter pass of the tick: move each bubble, then retain the
ones still under the surface margin. -/
noncomputable def updateBubbles (fc : ℕ) (bs : List Bubble) : List Bubble :=
  (bs.map (bubbleStep fc)).filter (bubbleKeep fc)

/-- The fresh player of `resetGame`: centered vertically, zero velocity. -/
def initialPlayer : Player :=
  { x := 150, y := GAME_HEIGHT / 2, width := PLAYER_SIZE,
    height := PLAYER_SIZE, velocity := 0 }

/-- The fresh game data of `resetGame`. -/
def initialGame : GameData :=
  { player := initialPlayer, pipes := [], bubbles := [], frameCount := 0 }

/-- The component's initial React state. -/
def initialSession : Session :=
  { phase := Phase.menu, score := 0, highScore := 0, game := initialGame }

/-- Function `startGame`: reset the game data and the score, then enter `playing`. -/
def startGame (s : Session) : Session :=
  { s with phase := Phase.playing, score := 0, game := initialGame }

/-- Function `jump`: only while `playing`, overwrite the velocity with `JUMP_FORCE`. -/
def jumpSession (s : Session) : Session :=
  if s.phase = Phase.playing then
    { s with game :=
      { s.game with player := { s.game.player with velocity := JUMP_FORCE } } }
  else s

/-- Function `toMenu` from the source: it runs `setGameState` to `menu`, with no guard. -/
def toMenu (s : Session) : Session :=
  { s with phase := Phase.menu }

/-- Function `endGame` from the source: enter `gameOver` and run
`setHighScore` to the max of the previous high score and `score` — where
`score` is the React state the `useCallback` closure captured at the last
render.  During a tick this captured value is the PRE-tick score: the
`setScore` increments queued earlier in the same tick are not yet visible
to the closure.  `capturedScore` stands for that closed-over value. -/
def endGame (capturedScore : ℕ) (s : Session) : Session :=
  { s with phase := Phase.gameOver,
           highScore := max s.highScore capturedScore }

/-- The frame counter after the tick's `game.frameCount++`. -/
def tickFrame (s : Session) : ℕ := s.game.frameCount + 1

/-- The player after the tick's integration step. -/
def tickPlayer (s : Session) : Player := integratePlayer s.game.player

/-- The pipe list after the tick's spawn and translation passes, each pipe
paired with its scoring flag for this tick. -/
def tickMovedScored (o : TickRand) (s : Session) : List (Pipe × Bool) :=
  (spawnPipes (tickFrame s) o.pipeR s.game.pipes).map
    (pipeStep (tickPlayer s).x)

/-- The pipes the tick's filter retains: exactly the ones the same tick's
fork-collision loop then iterates over. -/
def tickChecked (o : TickRand) (s : Session) : List Pipe :=
  ((tickMovedScored o s).map Prod.fst).filter fun p =>
    decide (0 < p.x + p.width)

/-- The pipes the tick's filter drops. -/
def tickRemoved (o : TickRand) (s : Session) : List Pipe :=
  ((tickMovedScored o s).map Prod.fst).filter fun p =>
    decide (p.x + p.width ≤ 0)

/-- How much the tick increments the score: one per pipe whose callback
fired `setScore`. -/
def tickScoreGain (o : TickRand) (s : Session) : ℕ :=
  ((tickMovedScored o s).filter Prod.snd).length

/-- The bubble list after the tick's spawn and filter passes. -/
noncomputable def tickBubbles (o : TickRand) (s : Session) : List Bubble :=
  updateBubbles (tickFrame s) (spawnBubbles (tickFrame s) o s.game.bubbles)

/-- The soup-collision test of the tick: soup surface sampled at the
player's horizontal center against the player's bottom edge. -/
def soupCollides (pl : Player) (fc : ℕ) : Prop :=
  ((pl.y + pl.height : ℚ) : ℝ) >
    soupSurfaceYAt ((pl.x + pl.width / 2 : ℚ) : ℝ) (fc : ℝ)

noncomputable instance : Decidable (soupCollides pl fc) := by
  unfold soupCollides; infer_instance

/-- The session after every update pass of the tick has run, before the
collision checks: all entity mutations of `gameLoop` happen before any of
its collision tests. -/
noncomputable def postState (o : TickRand) (s : Session) : Session :=
  { s with
    score := s.score + tickScoreGain o s
    game :=
      { player := tickPlayer s, pipes := tickChecked o s,
        bubbles := tickBubbles o s, frameCount := tickFrame s } }

/-- The `gameLoop` body for a playing session: update everything, then test
ceiling, soup and forks in this order; any hit calls `endGame`, whose
stale closure folds the PRE-tick score `s.score` into the high score (the
tick's own `setScore` increments are queued but not yet rendered). -/
noncomputable def tickPlaying (o : TickRand) (s : Session) : Session :=
  if (tickPlayer s).y < 0 then endGame s.score (postState o s)
  else if soupCollides (tickPlayer s) (tickFrame s) then
    endGame s.score (postState o s)
  else if (tickChecked o s).any (forkHit (tickPlayer s)) then
    endGame s.score (postState o s)
  else postState o s

/-- One animation frame: the loop is scheduled only while the phase is
`playing`; otherwise the session is untouched. -/
noncomputable def tickGame (o : TickRand) (s : Session) : Session :=
  if s.phase = Phase.playing then tickPlaying o s else s

/-- External inputs during play: a jump event or one animation frame. -/
inductive Ev where
  | jump
  | tick (o : TickRand)

/-- Apply one input to the session. -/
noncomputable def applyEv (e : Ev) (s : Session) : Session :=
  match e with
  | Ev.jump => jumpSession s
  | Ev.tick o => tickGame o s

/-- Apply a sequence of inputs, oldest first. -/
noncomputable def applyEvs (evs : List Ev) (s : Session) : Session :=
  evs.foldl (fun t e => applyEv e t) s

/-- Run `n` animation frames with the random stream `os`. -/
noncomputable def runTicks (os : ℕ → TickRand) : ℕ → Session → Session
  | 0, s => s
  | n + 1, s => tickGame (os n) (runTicks os n s)

/-- The sessions the component can actually be in: the initial state closed
under the four operations, ticks taking only valid random draws. -/
inductive ReachableV : Session → Prop
  | init : ReachableV initialSession
  | jump (s : Session) : ReachableV s → ReachableV (jumpSession s)
  | tick (o : TickRand) (s : Session) :
      o.Valid → ReachableV s → ReachableV (tickGame o s)
  | start (s : Session) : ReachableV s → ReachableV (startGame s)
  | menu (s : Session) : ReachableV s → ReachableV (toMenu s)

/-- The soup surface never drops 16 units below the baseline. -/
lemma soup_surface_ge (x f : ℝ) : 524 ≤ soupSurfaceYAt x f := by
  have h1 := Real.neg_one_le_sin (x * 0.015 + f * 0.06)
  have h2 := Real.neg_one_le_sin (x * 0.035 - f * 0.04)
  have hb : (SOUP_BASE_Y : ℝ) = 540 := by norm_num [SOUP_BASE_Y, GAME_HEIGHT]
  unfold soupSurfaceYAt
  rw [hb]
  nlinarith

/-- The soup surface never rises 16 units above the baseline. -/
lemma soup_surface_le (x f : ℝ) : soupSurfaceYAt x f ≤ 556 := by
  have h1 := Real.sin_le_one (x * 0.015 + f * 0.06)
  have h2 := Real.sin_le_one (x * 0.035 - f * 0.04)
  have hb : (SOUP_BASE_Y : ℝ) = 540 := by norm_num [SOUP_BASE_Y, GAME_HEIGHT]
  unfold soupSurfaceYAt
  rw [hb]
  nlinarith

/-- A player whose bottom edge stays under 524 cannot touch the soup. -/
lemma not_soupCollides (pl : Player) (fc : ℕ) (h : pl.y + pl.height < 524) :
    ¬ soupCollides pl fc := by
  unfold soupCollides
  push_neg
  have hs := soup_surface_ge ((pl.x + pl.width / 2 : ℚ) : ℝ) (fc : ℝ)
  have : ((pl.y + pl.height : ℚ) : ℝ) < 524 := by exact_mod_cast h
  linarith

lemma postState_phase (o : TickRand) (s : Session) :
    (postState o s).phase = s.phase := rfl

lemma postState_score (o : TickRand) (s : Session) :
    (postState o s).score = s.score + tickScoreGain o s := rfl

lemma postState_highScore (o : TickRand) (s : Session) :
    (postState o s).highScore = s.highScore := rfl

lemma postState_player (o : TickRand) (s : Session) :
    (postState o s).game.player = tickPlayer s := rfl

lemma postState_pipes (o : TickRand) (s : Session) :
    (postState o s).game.pipes = tickChecked o s := rfl

lemma postState_frameCount (o : TickRand) (s : Session) :
    (postState o s).game.frameCount = tickFrame s := rfl

lemma endGame_phase (c : ℕ) (s : Session) :
    (endGame c s).phase = Phase.gameOver := rfl

lemma endGame_score (c : ℕ) (s : Session) : (endGame c s).score = s.score :=
  rfl

lemma endGame_highScore (c : ℕ) (s : Session) :
    (endGame c s).highScore = max s.highScore c := rfl

lemma endGame_game (c : ℕ) (s : Session) : (endGame c s).game = s.game := rfl

lemma tickGame_playing (o : TickRand) (s : Session)
    (h : s.phase = Phase.playing) : tickGame o s = tickPlaying o s := by
  unfold tickGame
  rw [if_pos h]

lemma tickGame_frozen (o : TickRand) (s : Session)
    (h : s.phase ≠ Phase.playing) : tickGame o s = s := by
  unfold tickGame
  rw [if_neg h]

lemma tickPlaying_ceiling (o : TickRand) (s : Session)
    (h : (tickPlayer s).y < 0) :
    tickPlaying o s = endGame s.score (postState o s) := by
  unfold tickPlaying
  rw [if_pos h]

lemma tickPlaying_soup (o : TickRand) (s : Session)
    (h0 : ¬ (tickPlayer s).y < 0)
    (h : soupCollides (tickPlayer s) (tickFrame s)) :
    tickPlaying o s = endGame s.score (postState o s) := by
  unfold tickPlaying
  rw [if_neg h0, if_pos h]

lemma tickPlaying_fork (o : TickRand) (s : Session)
    (h0 : ¬ (tickPlayer s).y < 0)
    (h1 : ¬ soupCollides (tickPlayer s) (tickFrame s))
    (h : (tickChecked o s).any (forkHit (tickPlayer s)) = true) :
    tickPlaying o s = endGame s.score (postState o s) := by
  unfold tickPlaying
  rw [if_neg h0, if_neg h1, if_pos h]

lemma tickPlaying_clear (o : TickRand) (s : Session)
    (h0 : ¬ (tickPlayer s).y < 0)
    (h1 : ¬ soupCollides (tickPlayer s) (tickFrame s))
    (h2 : ¬ (tickChecked o s).any (forkHit (tickPlayer s)) = true) :
    tickPlaying o s = postState o s := by
  unfold tickPlaying
  rw [if_neg h0, if_neg h1, if_neg h2]

/-- A session in the middle of play, used as a concrete test state. -/
def somePlaying : Session :=
  { phase := Phase.playing, score := 3, highScore := 5, game := initialGame }

/-- C1 counterexample: calling `toMenu()` while the phase is `playing` is
not a no-op — the phase becomes `menu`. -/
theorem toMenu_from_playing_goes_menu :
    somePlaying.phase = Phase.playing ∧
      (toMenu somePlaying).phase = Phase.menu ∧
      (toMenu somePlaying).phase ≠ somePlaying.phase := by
  refine ⟨rfl, rfl, ?_⟩
  decide

/-- C1 (amended): `toMenu()` has no guard: from every phase, `gameOver`
included, it transitions the phase to `menu`, leaving the score, the high
score and the game data untouched.  The `gameOver`-only restriction of the
spec is enforced only by the UI, which shows the button solely on the
game-over overlay. -/
theorem toMenu_unconditionally_menu (s : Session) :
    (toMenu s).phase = Phase.menu ∧ (toMenu s).score = s.score ∧
      (toMenu s).highScore = s.highScore ∧ (toMenu s).game = s.game :=
  ⟨rfl, rfl, rfl, rfl⟩

lemma integratePlayer_velocity (p : Player) :
    (integratePlayer p).velocity = min (p.velocity + GRAVITY) MAX_FALL_SPEED := by
  unfold integratePlayer
  dsimp only
  rcases le_or_lt (p.velocity + GRAVITY) MAX_FALL_SPEED with h | h
  · rw [if_neg (not_lt.2 h), min_eq_left h]
  · rw [if_pos h, min_eq_right h.le]

lemma integratePlayer_y (p : Player) :
    (integratePlayer p).y = p.y + (integratePlayer p).velocity := rfl

lemma integratePlayer_x (p : Player) : (integratePlayer p).x = p.x := rfl

lemma integratePlayer_width (p : Player) :
    (integratePlayer p).width = p.width := rfl

lemma integratePlayer_height (p : Player) :
    (integratePlayer p).height = p.height := rfl

/-- C3: after the integration step the velocity is exactly the gravity-
incremented velocity clamped from above at `MAX_FALL_SPEED = 12`; hence it
never exceeds 12, over any number of jump-free ticks, while no lower clamp
exists (below the cap the new velocity is exactly `velocity + GRAVITY`,
however negative). -/
theorem velocity_clamped_at_max_fall_speed (p : Player) (n : ℕ) :
    (integratePlayer p).velocity = min (p.velocity + GRAVITY) MAX_FALL_SPEED ∧
      (integratePlayer p).velocity ≤ 12 ∧
      (integratePlayer p).y = p.y + (integratePlayer p).velocity ∧
      (integratePlayer^[n + 1] p).velocity ≤ 12 ∧
      GRAVITY = 1 / 2 ∧ MAX_FALL_SPEED = 12 := by
  have hb : ∀ q : Player, (integratePlayer q).velocity ≤ 12 := by
    intro q
    rw [integratePlayer_velocity]
    have : MAX_FALL_SPEED = 12 := by norm_num [MAX_FALL_SPEED]
    calc min (q.velocity + GRAVITY) MAX_FALL_SPEED ≤ MAX_FALL_SPEED :=
          min_le_right _ _
      _ = 12 := this
  refine ⟨integratePlayer_velocity p, hb p, integratePlayer_y p, ?_, ?_, ?_⟩
  · rw [Function.iterate_succ_apply']
    exact hb _
  · norm_num [GRAVITY]
  · norm_num [MAX_FALL_SPEED]

/-- C5: a spawn emits exactly two rectangles at `x = 800`, width 80: a top
one at `y = 0` of height `h = r * 120 + 100 ∈ [100, 220)` and a bottom one
at `y = h + PIPE_GAP` of height `600 - h - 280`, so the two heights and the
gap tile the world height exactly; the pair is pushed exactly on frames
with `frameCount % 140 == 0`. -/
theorem spawn_pair_geometry (r : ℚ) (h0 : 0 ≤ r) (h1 : r < 1) :
    spawnPair r =
      [{ x := 800, y := 0, width := 80, height := r * 120 + 100,
         passed := false },
       { x := 800, y := (r * 120 + 100) + 280, width := 80,
         height := 600 - (r * 120 + 100) - 280, passed := false }] ∧
      100 ≤ r * 120 + 100 ∧ r * 120 + 100 < 220 ∧
      (r * 120 + 100) + PIPE_GAP + (600 - (r * 120 + 100) - 280) =
        GAME_HEIGHT ∧
      (∀ (fc : ℕ) (l : List Pipe),
        spawnPipes fc r l =
          if fc % 140 = 0 then l ++ spawnPair r else l) := by
  refine ⟨?_, by linarith, by linarith, ?_, ?_⟩
  · unfold spawnPair
    norm_num [GAME_WIDTH, GAME_HEIGHT, PIPE_WIDTH, PIPE_GAP]
  · norm_num [PIPE_GAP, GAME_HEIGHT]
  · intro fc l
    unfold spawnPipes SPAWN_INTERVAL
    rfl

/-- C5 witness: the geometry at the concrete draw `r = 1/2` (gap top edge
at height 160). -/
theorem spawn_pair_geometry_witness :
    (0 : ℚ) ≤ 1 / 2 ∧ (1 / 2 : ℚ) < 1 ∧
      (spawnPair (1 / 2) =
        [{ x := 800, y := 0, width := 80, height := (1 / 2 : ℚ) * 120 + 100,
           passed := false },
         { x := 800, y := ((1 / 2 : ℚ) * 120 + 100) + 280, width := 80,
           height := 600 - ((1 / 2 : ℚ) * 120 + 100) - 280,
           passed := false }] ∧
        100 ≤ (1 / 2 : ℚ) * 120 + 100 ∧ (1 / 2 : ℚ) * 120 + 100 < 220 ∧
        ((1 / 2 : ℚ) * 120 + 100) + PIPE_GAP +
            (600 - ((1 / 2 : ℚ) * 120 + 100) - 280) = GAME_HEIGHT ∧
        (∀ (fc : ℕ) (l : List Pipe),
          spawnPipes fc (1 / 2) l =
            if fc % 140 = 0 then l ++ spawnPair (1 / 2) else l)) :=
  ⟨by norm_num, by norm_num,
    spawn_pair_geometry (1 / 2) (by norm_num) (by norm_num)⟩

/-- The pipe's state after `t` further ticks of the filter callback. -/
def pipeAfter (px : ℚ) (p : Pipe) : ℕ → Pipe
  | 0 => p
  | t + 1 => (pipeStep px (pipeAfter px p t)).1

/-- Whether tick `t + 1` (counting from the pipe's current state) fires the
score increment for this pipe. -/
def scoredAt (px : ℚ) (p : Pipe) (t : ℕ) : Bool :=
  (pipeStep px (pipeAfter px p t)).2

/-- After `t` ticks of translation the pipe's right edge is strictly left
of the player's x. -/
def crossAt (px : ℚ) (p : Pipe) (t : ℕ) : Prop :=
  p.x - GAME_SPEED * t + p.width < px

instance : Decidable (crossAt px p t) := by
  unfold crossAt; infer_instance

lemma pipeStep_fst_x (px : ℚ) (p : Pipe) :
    (pipeStep px p).1.x = p.x - GAME_SPEED := by
  unfold pipeStep
  dsimp only
  split <;> rfl

lemma pipeStep_fst_y (px : ℚ) (p : Pipe) : (pipeStep px p).1.y = p.y := by
  unfold pipeStep
  dsimp only
  split <;> rfl

lemma pipeStep_fst_width (px : ℚ) (p : Pipe) :
    (pipeStep px p).1.width = p.width := by
  unfold pipeStep
  dsimp only
  split <;> rfl

lemma pipeStep_fst_height (px : ℚ) (p : Pipe) :
    (pipeStep px p).1.height = p.height := by
  unfold pipeStep
  dsimp only
  split <;> rfl

lemma pipeStep_snd_iff (px : ℚ) (p : Pipe) :
    (pipeStep px p).2 = true ↔
      p.passed = false ∧ p.y = 0 ∧ p.x - GAME_SPEED + p.width < px := by
  unfold pipeStep
  dsimp only
  split
  case isTrue h => simpa using h
  case isFalse h => simpa using h

lemma pipeStep_fst_passed_iff (px : ℚ) (p : Pipe) :
    (pipeStep px p).1.passed = true ↔
      p.passed = true ∨ (p.y = 0 ∧ p.x - GAME_SPEED + p.width < px) := by
  unfold pipeStep
  dsimp only
  split
  case isTrue h =>
    simp only [true_iff]
    exact Or.inr ⟨h.2.1, h.2.2⟩
  case isFalse h =>
    push_neg at h
    constructor
    · intro hb
      exact Or.inl hb
    · rintro (hb | ⟨hy, hx⟩)
      · exact hb
      · cases hpb : p.passed
        · exact absurd hx (not_lt.2 (h hpb hy))
        · rfl

lemma pipeAfter_x (px : ℚ) (p : Pipe) (t : ℕ) :
    (pipeAfter px p t).x = p.x - GAME_SPEED * t := by
  induction t with
  | zero => simp [pipeAfter]
  | succ t ih =>
    show (pipeStep px (pipeAfter px p t)).1.x = _
    rw [pipeStep_fst_x, ih]
    push_cast
    ring

lemma pipeAfter_y (px : ℚ) (p : Pipe) (t : ℕ) :
    (pipeAfter px p t).y = p.y := by
  induction t with
  | zero => rfl
  | succ t ih =>
    show (pipeStep px (pipeAfter px p t)).1.y = _
    rw [pipeStep_fst_y, ih]

lemma pipeAfter_width (px : ℚ) (p : Pipe) (t : ℕ) :
    (pipeAfter px p t).width = p.width := by
  induction t with
  | zero => rfl
  | succ t ih =>
    show (pipeStep px (pipeAfter px p t)).1.width = _
    rw [pipeStep_fst_width, ih]

lemma crossAt_mono (px : ℚ) (p : Pipe) {t u : ℕ} (h : t ≤ u)
    (hc : crossAt px p t) : crossAt px p u := by
  unfold crossAt at hc ⊢
  have hg : (0 : ℚ) < GAME_SPEED := by norm_num [GAME_SPEED]
  have : GAME_SPEED * t ≤ GAME_SPEED * u := by
    apply mul_le_mul_of_nonneg_left _ hg.le
    exact_mod_cast h
  linarith

lemma pipeAfter_passed_iff (px : ℚ) (p : Pipe) (hp : p.passed = false)
    (hy : p.y = 0) (h0 : ¬ crossAt px p 0) (t : ℕ) :
    ((pipeAfter px p t).passed = true ↔ crossAt px p t) := by
  induction t with
  | zero =>
    simp only [pipeAfter, hp]
    simp [h0]
  | succ t ih =>
    show (pipeStep px (pipeAfter px p t)).1.passed = true ↔ _
    rw [pipeStep_fst_passed_iff, ih, pipeAfter_y, pipeAfter_x,
      pipeAfter_width, hy]
    have harith : p.x - GAME_SPEED * t - GAME_SPEED + p.width < px ↔
        crossAt px p (t + 1) := by
      unfold crossAt
      constructor <;> intro h <;> push_cast at * <;> linarith
    rw [harith]
    constructor
    · rintro (h | ⟨-, h⟩)
      · exact crossAt_mono px p (Nat.le_succ t) h
      · exact h
    · intro h
      exact Or.inr ⟨rfl, h⟩

lemma scoredAt_iff (px : ℚ) (p : Pipe) (hp : p.passed = false)
    (hy : p.y = 0) (h0 : ¬ crossAt px p 0) (t : ℕ) :
    scoredAt px p t = true ↔ crossAt px p (t + 1) ∧ ¬ crossAt px p t := by
  unfold scoredAt
  rw [pipeStep_snd_iff, pipeAfter_y, pipeAfter_x, pipeAfter_width, hy]
  have harith : p.x - GAME_SPEED * t - GAME_SPEED + p.width < px ↔
      crossAt px p (t + 1) := by
    unfold crossAt
    constructor <;> intro h <;> push_cast at * <;> linarith
  rw [harith]
  have hpa : (pipeAfter px p t).passed = false ↔ ¬ crossAt px p t := by
    rw [← Bool.not_eq_true, not_iff_not]
    exact pipeAfter_passed_iff px p hp hy h0 t
  rw [hpa]
  tauto

lemma tickPlaying_cases (o : TickRand) (s : Session) :
    tickPlaying o s = endGame s.score (postState o s) ∨
      tickPlaying o s = postState o s := by
  unfold tickPlaying
  split
  · exact Or.inl rfl
  split
  · exact Or.inl rfl
  split
  · exact Or.inl rfl
  · exact Or.inr rfl

lemma tickPlaying_score (o : TickRand) (s : Session) :
    (tickPlaying o s).score = s.score + tickScoreGain o s := by
  rcases tickPlaying_cases o s with h | h <;> rw [h] <;> rfl

lemma tickGame_score (o : TickRand) (s : Session)
    (h : s.phase = Phase.playing) :
    (tickGame o s).score = s.score + tickScoreGain o s := by
  rw [tickGame_playing o s h, tickPlaying_score]

/-- The uniqueness half of the scoring contract: a pipe's callback fires
`setScore` on at most one tick of its lifetime. -/
lemma scoredAt_unique (px : ℚ) (p : Pipe) (hp : p.passed = false)
    (hy : p.y = 0) (h0 : ¬ crossAt px p 0) (t1 t2 : ℕ)
    (h1 : scoredAt px p t1 = true) (h2 : scoredAt px p t2 = true) :
    t1 = t2 := by
  rw [scoredAt_iff px p hp hy h0] at h1 h2
  by_contra hne
  rcases Nat.lt_or_ge t1 t2 with hlt | hge
  · exact h2.2 (crossAt_mono px p hlt h1.1)
  · have hlt2 : t2 < t1 := lt_of_le_of_ne hge fun e => hne e.symm
    exact h1.2 (crossAt_mono px p hlt2 h2.1)

/-- A pipe that is not the top rectangle of its pair never scores. -/
lemma scoredAt_bottom (px : ℚ) (q : Pipe) (t : ℕ) (hy : q.y ≠ 0) :
    scoredAt px q t = false := by
  unfold scoredAt
  rw [← Bool.not_eq_true, pipeStep_snd_iff, pipeAfter_y]
  intro h
  exact hy h.2.1

/-- C4: with the pipe starting right of the player (as every spawn at
x = 800 against the player's x = 150 does), the score callback fires on
exactly the tick the pipe's right edge first moves strictly left of the
player's x, never fires twice for the same pipe, never fires for a pipe
with y ≠ 0 (the bottom rectangle of a pair), and the session score grows by
exactly the tick's number of firings. -/
theorem score_increments_once_per_pair (px : ℚ) (p : Pipe)
    (hp : p.passed = false) (hy : p.y = 0) (h0 : ¬ crossAt px p 0) :
    (∀ t, scoredAt px p t = true ↔
      crossAt px p (t + 1) ∧ ¬ crossAt px p t) ∧
    (∀ t1 t2, scoredAt px p t1 = true → scoredAt px p t2 = true →
      t1 = t2) ∧
    (∀ (q : Pipe) (t : ℕ), q.y ≠ 0 → scoredAt px q t = false) ∧
    (∀ (o : TickRand) (s : Session), s.phase = Phase.playing →
      (tickGame o s).score = s.score + tickScoreGain o s) :=
  ⟨scoredAt_iff px p hp hy h0,
   scoredAt_unique px p hp hy h0,
   fun q t hq => scoredAt_bottom px q t hq,
   fun o s h => tickGame_score o s h⟩

/-- A freshly spawned top pipe, as `spawnPair` creates it. -/
def pipe800 : Pipe :=
  { x := 800, y := 0, width := 80, height := 150, passed := false }

/-- C4 witness: the scoring contract instantiated at the player's actual
x = 150 and a freshly spawned top pipe at x = 800. -/
theorem score_increments_once_witness :
    pipe800.passed = false ∧ pipe800.y = 0 ∧ ¬ crossAt 150 pipe800 0 ∧
    ((∀ t, scoredAt 150 pipe800 t = true ↔
        crossAt 150 pipe800 (t + 1) ∧ ¬ crossAt 150 pipe800 t) ∧
      (∀ t1 t2, scoredAt 150 pipe800 t1 = true →
        scoredAt 150 pipe800 t2 = true → t1 = t2) ∧
      (∀ (q : Pipe) (t : ℕ), q.y ≠ 0 → scoredAt 150 q t = false) ∧
      (∀ (o : TickRand) (s : Session), s.phase = Phase.playing →
        (tickGame o s).score = s.score + tickScoreGain o s)) := by
  have h0 : ¬ crossAt 150 pipe800 0 := by
    norm_num [crossAt, pipe800, GAME_SPEED]
  exact ⟨rfl, rfl, h0,
    score_increments_once_per_pair 150 pipe800 rfl rfl h0⟩

/-- C6: the soup surface is the pure closed-form function of its two
arguments alone — baseline 540 plus `sin(x*0.015 + f*0.06)*10` plus
`sin(x*0.035 - f*0.04)*6` (the second temporal phase subtracted) — and for
every x and frame it stays inside the band [540 - 16, 540 + 16], so
varying the frame alone never makes it diverge. -/
theorem soup_surface_pure_and_bounded (x f : ℝ) :
    soupSurfaceYAt x f =
      540 + Real.sin (x * 0.015 + f * 0.06) * 10 +
        Real.sin (x * 0.035 - f * 0.04) * 6 ∧
    SOUP_BASE_Y = 540 ∧
    540 - 16 ≤ soupSurfaceYAt x f ∧ soupSurfaceYAt x f ≤ 540 + 16 := by
  refine ⟨?_, by norm_num [SOUP_BASE_Y, GAME_HEIGHT], ?_, ?_⟩
  · unfold soupSurfaceYAt
    norm_num [SOUP_BASE_Y, GAME_HEIGHT]
  · have := soup_surface_ge x f
    linarith
  · have := soup_surface_le x f
    linarith

/-- Membership in a filtered pipe list, stated on the retention test. -/
lemma mem_filter_rat_pos (l : List Pipe) (q : Pipe) :
    q ∈ l.filter (fun p => decide (0 < p.x + p.width)) ↔
      q ∈ l ∧ 0 < q.x + q.width := by
  simp [List.mem_filter]

lemma mem_filter_rat_nonpos (l : List Pipe) (q : Pipe) :
    q ∈ l.filter (fun p => decide (p.x + p.width ≤ 0)) ↔
      q ∈ l ∧ q.x + q.width ≤ 0 := by
  simp [List.mem_filter]

lemma mem_tickChecked_iff (o : TickRand) (s : Session) (q : Pipe) :
    q ∈ tickChecked o s ↔
      q ∈ (tickMovedScored o s).map Prod.fst ∧ 0 < q.x + q.width :=
  mem_filter_rat_pos _ q

lemma mem_tickRemoved_iff (o : TickRand) (s : Session) (q : Pipe) :
    q ∈ tickRemoved o s ↔
      q ∈ (tickMovedScored o s).map Prod.fst ∧ q.x + q.width ≤ 0 :=
  mem_filter_rat_nonpos _ q

/-- C2 (amended): within one tick, a translated pipe is retained iff its
right edge is strictly right of 0 and removed iff its right edge is at or
left of 0 (the boundary claim holds); but the removal filter runs before
the tick's collision loop, so a removed pipe is never part of that same
tick's collision check — harmlessly, because a removed pipe lies entirely
left of any player with nonnegative x and so can never satisfy the overlap
test. -/
theorem pipe_removal_iff_and_unchecked (o : TickRand) (s : Session)
    (q : Pipe) :
    (q ∈ tickChecked o s ↔
      q ∈ (tickMovedScored o s).map Prod.fst ∧ 0 < q.x + q.width) ∧
    (q ∈ tickRemoved o s ↔
      q ∈ (tickMovedScored o s).map Prod.fst ∧ q.x + q.width ≤ 0) ∧
    (0 ≤ (tickPlayer s).x → q ∈ tickRemoved o s →
      q ∉ tickChecked o s ∧ forkHit (tickPlayer s) q = false) := by
  refine ⟨mem_tickChecked_iff o s q, mem_tickRemoved_iff o s q, ?_⟩
  intro hx hq
  rw [mem_tickRemoved_iff] at hq
  constructor
  · rw [mem_tickChecked_iff]
    rintro ⟨-, hpos⟩
    exact absurd hpos (not_lt.2 hq.2)
  · rw [← Bool.not_eq_true]
    unfold forkHit
    rw [decide_eq_true_iff]
    rintro ⟨hlt, -, -, -⟩
    have : (tickPlayer s).x < 0 := lt_of_lt_of_le hlt hq.2
    exact absurd this (not_lt.2 hx)

/-- A playing session holding one pipe whose right edge crosses the left
boundary on the next tick. -/
def boundarySession : Session :=
  { phase := Phase.playing, score := 0, highScore := 0,
    game :=
      { player := initialPlayer,
        pipes := [{ x := -77, y := 0, width := 80, height := 150,
                    passed := true }],
        bubbles := [], frameCount := 0 } }

/-- A fixed tick's worth of random draws. -/
def halfRand : TickRand :=
  { pipeR := 1 / 2, bubX := 1 / 2, bubR := 1 / 2, bubVy := 1 / 2,
    bubW := 1 / 2 }

/-- The boundary pipe as it stands after this tick's translation. -/
def boundaryMovedPipe : Pipe :=
  { x := -80.9, y := 0, width := 80, height := 150, passed := true }

/-- C2 counterexample: on this tick the pipe is removed, yet the same
tick's collision loop never checks it — the filter ran first, so "removal
never occurs before the same-tick collision check has run against it" is
false of the code. -/
theorem removed_pipe_not_collision_checked :
    boundaryMovedPipe ∈ tickRemoved halfRand boundarySession ∧
      boundaryMovedPipe ∉ tickChecked halfRand boundarySession := by
  have hmoved : (tickMovedScored halfRand boundarySession).map Prod.fst =
      [boundaryMovedPipe] := by
    norm_num [tickMovedScored, spawnPipes, SPAWN_INTERVAL, tickFrame,
      boundarySession, pipeStep, GAME_SPEED, boundaryMovedPipe]
  constructor
  · rw [mem_tickRemoved_iff, hmoved]
    norm_num [boundaryMovedPipe]
  · rw [mem_tickChecked_iff, hmoved]
    rintro ⟨-, hpos⟩
    norm_num [boundaryMovedPipe] at hpos

/-- C2 witness: the amended statement at the same concrete tick — the
removal boundary holds and the removed pipe is both unchecked and unable
to overlap the player. -/
theorem pipe_removal_witness :
    0 ≤ (tickPlayer boundarySession).x ∧
      boundaryMovedPipe ∈ tickRemoved halfRand boundarySession ∧
      boundaryMovedPipe ∉ tickChecked halfRand boundarySession ∧
      forkHit (tickPlayer boundarySession) boundaryMovedPipe = false := by
  have hx : 0 ≤ (tickPlayer boundarySession).x := by
    show (0 : ℚ) ≤ 150
    norm_num
  have hmem := removed_pipe_not_collision_checked
  have h := (pipe_removal_iff_and_unchecked halfRand boundarySession
    boundaryMovedPipe).2.2 hx hmem.1
  exact ⟨hx, hmem.1, h.1, h.2⟩

/-- A bubble spawned this tick fails the retention test on the same tick:
it starts at y = 594, rises less than 1.5, its radius is at least 2, and
the surface never exceeds 556, so `y + r < surface - 2` is already false. -/
lemma bubbleKeep_fresh_false (fc : ℕ) (o : TickRand) (hv : o.Valid) :
    bubbleKeep fc (bubbleStep fc (mkBubble o)) = false := by
  obtain ⟨-, -, -, -, hr0, -, hv0, hv1, -, -⟩ := hv
  have hr0R : (0 : ℝ) ≤ (o.bubR : ℝ) := by exact_mod_cast hr0
  have hv1R : ((o.bubVy : ℚ) : ℝ) < 1 := by exact_mod_cast hv1
  unfold bubbleKeep
  rw [decide_eq_false_iff_not]
  intro hlt
  have hs := soup_surface_le (bubbleStep fc (mkBubble o)).x (fc : ℝ)
  have hy : (bubbleStep fc (mkBubble o)).y =
      ((GAME_HEIGHT : ℚ) : ℝ) - 6 + (-0.6 - (o.bubVy : ℝ) * 0.9) := rfl
  have hr : (bubbleStep fc (mkBubble o)).r = 2 + (o.bubR : ℝ) * 5 := rfl
  rw [hy, hr] at hlt
  have hgh : ((GAME_HEIGHT : ℚ) : ℝ) = 600 := by norm_num [GAME_HEIGHT]
  rw [hgh] at hlt
  linarith

/-- The tick's bubble passes leave no live bubble behind when none was
live before: the fresh spawn (if any) pops in the same tick's filter. -/
lemma updateBubbles_fresh (fc : ℕ) (o : TickRand) (hv : o.Valid) :
    updateBubbles fc (spawnBubbles fc o []) = [] := by
  unfold spawnBubbles
  split
  · show updateBubbles fc ([] ++ [mkBubble o]) = []
    unfold updateBubbles
    simp [bubbleKeep_fresh_false fc o hv]
  · rfl

lemma tickPlaying_game_bubbles (o : TickRand) (s : Session) :
    (tickPlaying o s).game.bubbles = tickBubbles o s := by
  rcases tickPlaying_cases o s with h | h <;> rw [h] <;> rfl

lemma tickPlaying_game_pipes (o : TickRand) (s : Session) :
    (tickPlaying o s).game.pipes = tickChecked o s := by
  rcases tickPlaying_cases o s with h | h <;> rw [h] <;> rfl

lemma jumpSession_game_bubbles (s : Session) :
    (jumpSession s).game.bubbles = s.game.bubbles := by
  unfold jumpSession
  split <;> rfl

lemma jumpSession_game_pipes (s : Session) :
    (jumpSession s).game.pipes = s.game.pipes := by
  unfold jumpSession
  split <;> rfl

/-- Every reachable session ends its last operation with no live bubble. -/
lemma reachable_bubbles_nil (s : Session) (h : ReachableV s) :
    s.game.bubbles = [] := by
  induction h with
  | init => rfl
  | jump s _ ih => rw [jumpSession_game_bubbles]; exact ih
  | tick o s hv _ ih =>
    by_cases hp : s.phase = Phase.playing
    · rw [tickGame_playing o s hp, tickPlaying_game_bubbles]
      unfold tickBubbles
      rw [ih]
      exact updateBubbles_fresh _ o hv
    · rw [tickGame_frozen o s hp]; exact ih
  | start s _ ih => rfl
  | menu s _ ih => exact ih

/-- C9: the soup surface stays at or under 556; a freshly spawned bubble
starts at y = 594 with radius at least 2 and rises less than 1.5 in its
first step, so the retention predicate is already false on the spawn tick
and the tick's filter drops it; consequently every reachable session holds
an empty bubble list, and the 40-bubble cap holds trivially. -/
theorem bubbles_pop_on_spawn_tick (o : TickRand) (fc : ℕ) (s : Session)
    (x f : ℝ) :
    soupSurfaceYAt x f ≤ 556 ∧
    (o.Valid →
      (mkBubble o).y = ((GAME_HEIGHT : ℚ) : ℝ) - 6 ∧
      ((GAME_HEIGHT : ℚ) : ℝ) - 6 = 594 ∧
      2 ≤ (mkBubble o).r ∧
      -(3 / 2 : ℝ) < (mkBubble o).vy ∧ (mkBubble o).vy ≤ -(3 / 5 : ℝ) ∧
      bubbleKeep fc (bubbleStep fc (mkBubble o)) = false ∧
      updateBubbles fc (spawnBubbles fc o []) = []) ∧
    (ReachableV s → s.game.bubbles = [] ∧ s.game.bubbles.length < 40) := by
  refine ⟨soup_surface_le x f, ?_, ?_⟩
  · intro hv
    have hvc := hv
    obtain ⟨-, -, -, -, hr0, -, hv0, hv1, -, -⟩ := hvc
    have hr0R : (0 : ℝ) ≤ (o.bubR : ℝ) := by exact_mod_cast hr0
    have hv0R : (0 : ℝ) ≤ (o.bubVy : ℝ) := by exact_mod_cast hv0
    have hv1R : ((o.bubVy : ℚ) : ℝ) < 1 := by exact_mod_cast hv1
    refine ⟨rfl, by norm_num [GAME_HEIGHT], ?_, ?_, ?_,
      bubbleKeep_fresh_false fc o hv, updateBubbles_fresh fc o hv⟩
    · show (2 : ℝ) ≤ 2 + (o.bubR : ℝ) * 5
      linarith
    · show -(3 / 2 : ℝ) < -0.6 - (o.bubVy : ℝ) * 0.9
      linarith
    · show (-0.6 : ℝ) - (o.bubVy : ℝ) * 0.9 ≤ -(3 / 5 : ℝ)
      linarith
  · intro hr
    have hb := reachable_bubbles_nil s hr
    rw [hb]
    exact ⟨rfl, by norm_num⟩

/-- C9 witness: concrete draws (all one half) are valid, the bubble they
spawn at frame 12 is dropped by the same tick's filter, and the reachable
initial session indeed holds no bubble. -/
theorem bubbles_pop_witness :
    halfRand.Valid ∧
      bubbleKeep 12 (bubbleStep 12 (mkBubble halfRand)) = false ∧
      ReachableV initialSession ∧ initialSession.game.bubbles = [] ∧
      initialSession.game.bubbles.length < 40 := by
  have hv : halfRand.Valid := by
    norm_num [TickRand.Valid, halfRand]
  refine ⟨hv, ?_, ReachableV.init, ?_, ?_⟩
  · exact ((bubbles_pop_on_spawn_tick halfRand 12 initialSession 0 0).2.1
      hv).2.2.2.2.2.1
  · exact ((bubbles_pop_on_spawn_tick halfRand 12 initialSession 0 0).2.2
      ReachableV.init).1
  · exact ((bubbles_pop_on_spawn_tick halfRand 12 initialSession 0 0).2.2
      ReachableV.init).2

/-- Pipe lists made of consecutive pairs sharing x and width, as the
spawner creates them. -/
inductive Paired : List Pipe → Prop
  | nil : Paired []
  | pair (p q : Pipe) (l : List Pipe) :
      p.x = q.x → p.width = q.width → Paired l → Paired (p :: q :: l)

lemma Paired.append_pair {l : List Pipe} (h : Paired l) (a b : Pipe)
    (hx : a.x = b.x) (hw : a.width = b.width) : Paired (l ++ [a, b]) := by
  induction h with
  | nil => exact Paired.pair a b [] hx hw Paired.nil
  | pair p q l hx2 hw2 hl ih => exact Paired.pair p q _ hx2 hw2 ih

lemma paired_spawnPipes (fc : ℕ) (r : ℚ) {l : List Pipe} (h : Paired l) :
    Paired (spawnPipes fc r l) := by
  unfold spawnPipes
  split
  · exact h.append_pair _ _ rfl rfl
  · exact h

lemma paired_map_pipeStep (px : ℚ) {l : List Pipe} (h : Paired l) :
    Paired ((l.map (pipeStep px)).map Prod.fst) := by
  induction h with
  | nil => exact Paired.nil
  | pair p q l hx hw hl ih =>
    simp only [List.map_cons]
    refine Paired.pair _ _ _ ?_ ?_ ih
    · rw [pipeStep_fst_x, pipeStep_fst_x, hx]
    · rw [pipeStep_fst_width, pipeStep_fst_width, hw]

lemma paired_filter_pos {l : List Pipe} (h : Paired l) :
    Paired (l.filter fun p => decide (0 < p.x + p.width)) := by
  induction h with
  | nil => exact Paired.nil
  | pair p q l hx hw hl ih =>
    by_cases hc : 0 < p.x + p.width
    · have hcq : 0 < q.x + q.width := by
        rw [← hx, ← hw]; exact hc
      rw [List.filter_cons, List.filter_cons, if_pos (by simpa using hc),
        if_pos (by simpa using hcq)]
      exact Paired.pair _ _ _ hx hw ih
    · have hcq : ¬ 0 < q.x + q.width := by
        rw [← hx, ← hw]; exact hc
      rw [List.filter_cons, List.filter_cons, if_neg (by simpa using hc),
        if_neg (by simpa using hcq)]
      exact ih

lemma paired_even {l : List Pipe} (h : Paired l) : Even l.length := by
  induction h with
  | nil => exact ⟨0, rfl⟩
  | pair p q l _ _ _ ih =>
    obtain ⟨k, hk⟩ := ih
    exact ⟨k + 1, by simp [List.length_cons, hk]; omega⟩

/-- Every reachable session's pipe list is a list of x-and-width-sharing
pairs, hence of even length. -/
lemma reachable_paired (s : Session) (h : ReachableV s) :
    Paired s.game.pipes := by
  induction h with
  | init => exact Paired.nil
  | jump s _ ih => rw [jumpSession_game_pipes]; exact ih
  | tick o s hv _ ih =>
    by_cases hp : s.phase = Phase.playing
    · rw [tickGame_playing o s hp, tickPlaying_game_pipes]
      exact paired_filter_pos (paired_map_pipeStep _
        (paired_spawnPipes _ _ ih))
    · rw [tickGame_frozen o s hp]; exact ih
  | start s _ ih => exact Paired.nil
  | menu s _ ih => exact ih

/-- C10: both rectangles of a spawned pair start at x = 800 with width 80;
every tick translates each pipe by the same GAME_SPEED = 3.9 and keeps its
width, so pipes sharing x and width cross the removal boundary on the same
tick; consequently every reachable session's pipe list is made of x-sharing
pairs and has even length. -/
theorem pipes_stay_paired (r px : ℚ) (s : Session)
    (p q : Pipe) :
    ((spawnPair r).map Pipe.x = [800, 800] ∧
      (spawnPair r).map Pipe.width = [80, 80]) ∧
    ((pipeStep px p).1.x = p.x - GAME_SPEED ∧
      (pipeStep px p).1.width = p.width ∧ GAME_SPEED = 3.9) ∧
    (p.x = q.x → p.width = q.width →
      ((pipeStep px p).1.x + (pipeStep px p).1.width ≤ 0 ↔
        (pipeStep px q).1.x + (pipeStep px q).1.width ≤ 0)) ∧
    (ReachableV s → Paired s.game.pipes ∧ Even s.game.pipes.length) := by
  refine ⟨⟨?_, ?_⟩, ⟨pipeStep_fst_x px p, pipeStep_fst_width px p, rfl⟩,
    ?_, ?_⟩
  · simp [spawnPair, GAME_WIDTH]
  · simp [spawnPair, PIPE_WIDTH]
  · intro hx hw
    rw [pipeStep_fst_x, pipeStep_fst_x, pipeStep_fst_width,
      pipeStep_fst_width, hx, hw]
  · intro hr
    have hp := reachable_paired s hr
    exact ⟨hp, paired_even hp⟩

/-- C10 witness: the invariant at the reachable initial session. -/
theorem pipes_stay_paired_witness :
    ReachableV initialSession ∧ Paired initialSession.game.pipes ∧
      Even initialSession.game.pipes.length :=
  ⟨ReachableV.init,
    (pipes_stay_paired 0 0 initialSession pipe800 pipe800).2.2.2
      ReachableV.init⟩

lemma jumpSession_phase (s : Session) : (jumpSession s).phase = s.phase := by
  unfold jumpSession
  split <;> rfl

lemma jumpSession_score (s : Session) : (jumpSession s).score = s.score := by
  unfold jumpSession
  split <;> rfl

lemma jumpSession_highScore (s : Session) :
    (jumpSession s).highScore = s.highScore := by
  unfold jumpSession
  split <;> rfl

lemma jumpSession_game_frameCount (s : Session) :
    (jumpSession s).game.frameCount = s.game.frameCount := by
  unfold jumpSession
  split <;> rfl

/-- A tick on a playing session either stays playing with the high score
untouched, or ends the game folding the stale PRE-tick score into it. -/
lemma tick_dichotomy (o : TickRand) (s : Session)
    (h : s.phase = Phase.playing) :
    ((tickGame o s).phase = Phase.playing ∧
      (tickGame o s).highScore = s.highScore) ∨
    ((tickGame o s).phase = Phase.gameOver ∧
      (tickGame o s).highScore = max s.highScore s.score) := by
  rw [tickGame_playing o s h]
  rcases tickPlaying_cases o s with he | he <;> rw [he]
  · exact Or.inr ⟨rfl, rfl⟩
  · exact Or.inl ⟨h, rfl⟩

lemma applyEvs_nil (s : Session) : applyEvs [] s = s := rfl

lemma applyEvs_cons (e : Ev) (evs : List Ev) (s : Session) :
    applyEvs (e :: evs) s = applyEvs evs (applyEv e s) := rfl

lemma applyEvs_append (l1 l2 : List Ev) (s : Session) :
    applyEvs (l1 ++ l2) s = applyEvs l2 (applyEvs l1 s) := by
  unfold applyEvs
  exact List.foldl_append _ _ l1 l2

lemma applyEv_frozen (e : Ev) (s : Session)
    (h : s.phase ≠ Phase.playing) : applyEv e s = s := by
  cases e with
  | jump =>
    show jumpSession s = s
    unfold jumpSession
    rw [if_neg h]
  | tick o => exact tickGame_frozen o s h

lemma applyEvs_frozen (evs : List Ev) (s : Session)
    (h : s.phase ≠ Phase.playing) : applyEvs evs s = s := by
  induction evs with
  | nil => rfl
  | cons e evs ih => rw [applyEvs_cons, applyEv_frozen e s h]; exact ih

/-- Once a run of inputs from a playing session reaches `gameOver`, the
final high score is the old high score maxed with the score `endGame`'s
stale closure captured — the score just before the terminal tick, which
sits `g` (that tick's gain) below the final score. -/
lemma endOnceStale (evs : List Ev) (s : Session)
    (h : s.phase = Phase.playing)
    (hend : (applyEvs evs s).phase = Phase.gameOver) :
    ∃ c g : ℕ, (applyEvs evs s).score = c + g ∧
      (applyEvs evs s).highScore = max s.highScore c := by
  induction evs generalizing s with
  | nil =>
    rw [applyEvs_nil] at hend
    rw [h] at hend
    exact absurd hend (by decide)
  | cons e evs ih =>
    rw [applyEvs_cons] at hend ⊢
    cases e with
    | jump =>
      have hph : (jumpSession s).phase = Phase.playing := by
        rw [jumpSession_phase]; exact h
      obtain ⟨c, g, hsc, hhs⟩ := ih (jumpSession s) hph hend
      refine ⟨c, g, hsc, ?_⟩
      show (applyEvs evs (jumpSession s)).highScore = max s.highScore c
      rw [hhs, jumpSession_highScore]
    | tick o =>
      rcases tick_dichotomy o s h with ⟨hph, hhs⟩ | ⟨hph, hhs⟩
      · obtain ⟨c, g, hsc, hr⟩ := ih (tickGame o s) hph hend
        refine ⟨c, g, hsc, ?_⟩
        show (applyEvs evs (tickGame o s)).highScore = max s.highScore c
        rw [hr, hhs]
      · have hfr := applyEvs_frozen evs (tickGame o s) (by
          rw [hph]; decide)
        refine ⟨s.score, tickScoreGain o s, ?_, ?_⟩
        · show (applyEvs evs (tickGame o s)).score = _
          rw [hfr]
          exact tickGame_score o s h
        · show (applyEvs evs (tickGame o s)).highScore = _
          rw [hfr]
          exact hhs

/-- High scores never decrease under any single input. -/
lemma highScore_mono (e : Ev) (s : Session) :
    s.highScore ≤ (applyEv e s).highScore := by
  cases e with
  | jump =>
    show s.highScore ≤ (jumpSession s).highScore
    rw [jumpSession_highScore]
  | tick o =>
    show s.highScore ≤ (tickGame o s).highScore
    by_cases h : s.phase = Phase.playing
    · rcases tick_dichotomy o s h with ⟨-, hh⟩ | ⟨-, hh⟩
      · rw [hh]
      · rw [hh]; exact le_max_left _ _
    · rw [tickGame_frozen o s h]

/-- The session after one play run from a fresh start. -/
noncomputable def firstSession (evs1 : List Ev) : Session :=
  applyEvs evs1 (startGame initialSession)

/-- The session after a second play run started right after the first. -/
noncomputable def secondSession (evs1 evs2 : List Ev) : Session :=
  applyEvs evs2 (startGame (firstSession evs1))

/-- C7 (amended): a terminal tick folds `max(highScore, capturedScore)`
into the high score, where `capturedScore` is the PRE-tick score the stale
`endGame` closure saw — the terminal tick's own increments are excluded;
when the terminal tick scores nothing the captured score equals the final
score and the original law is restored; the high score never decreases
under any input; and after two back-to-back fresh sessions both ending in
`gameOver`, the high score equals `max c1 c2` of the two captured scores
(each at most its session's final score, with equality exactly restoring
`max score1 score2`). -/
theorem high_score_folds_stale_score (evs1 evs2 : List Ev) (o : TickRand)
    (s : Session) (e : Ev) :
    (s.phase = Phase.playing → (tickGame o s).phase = Phase.gameOver →
      (tickGame o s).highScore = max s.highScore s.score ∧
      (tickGame o s).score = s.score + tickScoreGain o s ∧
      (tickScoreGain o s = 0 →
        (tickGame o s).highScore = max s.highScore (tickGame o s).score)) ∧
    (s.highScore ≤ (applyEv e s).highScore) ∧
    ((firstSession evs1).phase = Phase.gameOver →
      (secondSession evs1 evs2).phase = Phase.gameOver →
      ∃ c1 c2 : ℕ,
        c1 ≤ (firstSession evs1).score ∧
        c2 ≤ (secondSession evs1 evs2).score ∧
        (firstSession evs1).highScore = c1 ∧
        (secondSession evs1 evs2).highScore = max c1 c2 ∧
        (c1 = (firstSession evs1).score →
          c2 = (secondSession evs1 evs2).score →
          (secondSession evs1 evs2).highScore =
            max (firstSession evs1).score
              (secondSession evs1 evs2).score)) := by
  refine ⟨?_, highScore_mono e s, ?_⟩
  · intro hp hgo
    rcases tick_dichotomy o s hp with ⟨hph, -⟩ | ⟨-, hh⟩
    · rw [hph] at hgo
      exact absurd hgo (by decide)
    · refine ⟨hh, tickGame_score o s hp, ?_⟩
      intro hg
      rw [hh, tickGame_score o s hp, hg, Nat.add_zero]
  · intro h1 h2
    obtain ⟨c1, g1, hsc1, hhs1⟩ :=
      endOnceStale evs1 (startGame initialSession) rfl h1
    obtain ⟨c2, g2, hsc2, hhs2⟩ :=
      endOnceStale evs2 (startGame (firstSession evs1)) rfl h2
    have hsc1b : (firstSession evs1).score = c1 + g1 := hsc1
    have hsc2b : (secondSession evs1 evs2).score = c2 + g2 := hsc2
    have hhs1b : (firstSession evs1).highScore = max 0 c1 := hhs1
    have hhs2b : (secondSession evs1 evs2).highScore =
        max (firstSession evs1).highScore c2 := hhs2
    have hc1 : (firstSession evs1).highScore = c1 := by omega
    have hc2 : (secondSession evs1 evs2).highScore = max c1 c2 := by
      rw [hhs2b, hc1]
    refine ⟨c1, c2, by omega, by omega, hc1, hc2, ?_⟩
    intro he1 he2
    rw [hc2, he1, he2]

/-- The top pipe whose right edge crosses the player's x on the next tick. -/
def staleScoringPipe : Pipe :=
  { x := 73, y := 0, width := 80, height := 100, passed := false }

/-- A playing session about to both score and die on the ceiling in the
same tick: the player integrates to y = -4.5 < 0 while the pipe moves to
x = 69.1, whose right edge 149.1 is strictly left of the player's 150. -/
def staleSession : Session :=
  { phase := Phase.playing, score := 0, highScore := 0,
    game :=
      { player := ⟨150, 5, 40, 40, -10⟩,
        pipes := [staleScoringPipe], bubbles := [], frameCount := 0 } }

/-- C7 counterexample: on a tick that both scores a pipe and terminates
(here via the ceiling), the final score is 1, but `endGame`'s stale
closure folded the pre-tick score 0, so the high score stays 0 — not
`max(highScore, score at the terminal collision) = 1` as the claim
states. -/
theorem terminal_scoring_tick_stale_highscore :
    staleSession.phase = Phase.playing ∧
      (tickGame halfRand staleSession).phase = Phase.gameOver ∧
      (tickGame halfRand staleSession).score = 1 ∧
      (tickGame halfRand staleSession).highScore = 0 ∧
      (tickGame halfRand staleSession).highScore ≠
        max staleSession.highScore (tickGame halfRand staleSession).score := by
  have hy : (tickPlayer staleSession).y < 0 := by
    norm_num [tickPlayer, staleSession, integratePlayer, GRAVITY,
      MAX_FALL_SPEED]
  have htick : tickGame halfRand staleSession =
      endGame staleSession.score (postState halfRand staleSession) :=
    by rw [tickGame_playing halfRand staleSession rfl,
      tickPlaying_ceiling halfRand staleSession hy]
  have hgain : tickScoreGain halfRand staleSession = 1 := by
    norm_num [tickScoreGain, tickMovedScored, spawnPipes, SPAWN_INTERVAL,
      tickFrame, staleSession, pipeStep, GAME_SPEED, tickPlayer,
      integratePlayer, GRAVITY, MAX_FALL_SPEED, staleScoringPipe]
  have hsc : (tickGame halfRand staleSession).score = 1 := by
    rw [htick, endGame_score, postState_score, hgain]
    rfl
  have hhs : (tickGame halfRand staleSession).highScore = 0 := by
    rw [htick, endGame_highScore, postState_highScore]
    rfl
  refine ⟨rfl, by rw [htick]; rfl, hsc, hhs, ?_⟩
  rw [hsc, hhs]
  decide

lemma tick_no_pipes (o : TickRand) (s : Session)
    (hpipes : s.game.pipes = []) (hfc : s.game.frameCount + 1 < 140) :
    tickMovedScored o s = [] ∧ tickChecked o s = [] ∧
      tickScoreGain o s = 0 := by
  have hne : ¬ tickFrame s % SPAWN_INTERVAL = 0 := by
    unfold tickFrame SPAWN_INTERVAL
    rw [Nat.mod_eq_of_lt hfc]
    exact Nat.succ_ne_zero _
  have hsp : spawnPipes (tickFrame s) o.pipeR s.game.pipes = [] := by
    unfold spawnPipes
    rw [if_neg hne, hpipes]
  have hms : tickMovedScored o s = [] := by
    unfold tickMovedScored
    rw [hsp]
    rfl
  refine ⟨hms, ?_, ?_⟩
  · unfold tickChecked
    rw [hms]
    rfl
  · unfold tickScoreGain
    rw [hms]
    rfl

/-- One playing tick with no pipe on screen and no spawn due: the ceiling
branch. -/
lemma tick_empty_ceiling (o : TickRand) (s : Session)
    (hph : s.phase = Phase.playing) (hpipes : s.game.pipes = [])
    (hfc : s.game.frameCount + 1 < 140) (hy : (tickPlayer s).y < 0) :
    (tickGame o s).phase = Phase.gameOver ∧ (tickGame o s).score = s.score ∧
      (tickGame o s).highScore = max s.highScore s.score ∧
      (tickGame o s).game.player = tickPlayer s ∧
      (tickGame o s).game.pipes = [] ∧
      (tickGame o s).game.frameCount = s.game.frameCount + 1 := by
  obtain ⟨-, hchk, hgain⟩ := tick_no_pipes o s hpipes hfc
  rw [tickGame_playing o s hph, tickPlaying_ceiling o s hy]
  refine ⟨rfl, ?_, ?_, rfl, hchk, rfl⟩
  · rw [endGame_score, postState_score, hgain, Nat.add_zero]
  · rw [endGame_highScore, postState_highScore]

/-- One playing tick with no pipe on screen and no spawn due: the soup
branch. -/
lemma tick_empty_soup (o : TickRand) (s : Session)
    (hph : s.phase = Phase.playing) (hpipes : s.game.pipes = [])
    (hfc : s.game.frameCount + 1 < 140) (hy : ¬ (tickPlayer s).y < 0)
    (hsoup : soupCollides (tickPlayer s) (tickFrame s)) :
    (tickGame o s).phase = Phase.gameOver ∧ (tickGame o s).score = s.score ∧
      (tickGame o s).highScore = max s.highScore s.score ∧
      (tickGame o s).game.player = tickPlayer s ∧
      (tickGame o s).game.pipes = [] ∧
      (tickGame o s).game.frameCount = s.game.frameCount + 1 := by
  obtain ⟨-, hchk, hgain⟩ := tick_no_pipes o s hpipes hfc
  rw [tickGame_playing o s hph, tickPlaying_soup o s hy hsoup]
  refine ⟨rfl, ?_, ?_, rfl, hchk, rfl⟩
  · rw [endGame_score, postState_score, hgain, Nat.add_zero]
  · rw [endGame_highScore, postState_highScore]

/-- One playing tick with no pipe on screen and no spawn due: no collision,
the session keeps playing. -/
lemma tick_empty_clear (o : TickRand) (s : Session)
    (hph : s.phase = Phase.playing) (hpipes : s.game.pipes = [])
    (hfc : s.game.frameCount + 1 < 140) (hy : ¬ (tickPlayer s).y < 0)
    (hsoup : ¬ soupCollides (tickPlayer s) (tickFrame s)) :
    (tickGame o s).phase = Phase.playing ∧ (tickGame o s).score = s.score ∧
      (tickGame o s).highScore = s.highScore ∧
      (tickGame o s).game.player = tickPlayer s ∧
      (tickGame o s).game.pipes = [] ∧
      (tickGame o s).game.frameCount = s.game.frameCount + 1 := by
  obtain ⟨-, hchk, hgain⟩ := tick_no_pipes o s hpipes hfc
  have hany : (tickChecked o s).any (forkHit (tickPlayer s)) = false := by
    rw [hchk]
    rfl
  rw [tickGame_playing o s hph,
    tickPlaying_clear o s hy hsoup (by rw [hany]; exact Bool.false_ne_true)]
  refine ⟨hph, ?_, rfl, rfl, hchk, rfl⟩
  · rw [postState_score, hgain, Nat.add_zero]

/-- One jump followed by one tick with the fixed draws. -/
noncomputable def roundJT (s : Session) : Session :=
  tickGame halfRand (jumpSession s)

/-- A run of `n` rounds of jump-then-tick, as an input list. -/
def jtRun : ℕ → List Ev
  | 0 => []
  | n + 1 => Ev.jump :: Ev.tick halfRand :: jtRun n

lemma applyEvs_jtRun_succ (n : ℕ) (s : Session) :
    applyEvs (jtRun (n + 1)) s = applyEvs (jtRun n) (roundJT s) := rfl

lemma jtRun_snoc (n : ℕ) :
    jtRun (n + 1) = jtRun n ++ [Ev.jump, Ev.tick halfRand] := by
  induction n with
  | zero => rfl
  | succ n ih =>
    calc jtRun (n + 2) = Ev.jump :: Ev.tick halfRand :: jtRun (n + 1) := rfl
      _ = Ev.jump :: Ev.tick halfRand ::
            (jtRun n ++ [Ev.jump, Ev.tick halfRand]) := by rw [ih]
      _ = (Ev.jump :: Ev.tick halfRand :: jtRun n) ++
            [Ev.jump, Ev.tick halfRand] := by simp
      _ = jtRun (n + 1) ++ [Ev.jump, Ev.tick halfRand] := rfl

lemma jumpSession_player (s : Session) (h : s.phase = Phase.playing) :
    (jumpSession s).game.player =
      ⟨s.game.player.x, s.game.player.y, s.game.player.width,
        s.game.player.height, JUMP_FORCE⟩ := by
  unfold jumpSession
  rw [if_pos h]

/-- The state of the jump-every-tick run after `n` rounds: still playing,
score 0, no pipes, the player 9.5 units higher per round. -/
def jtInv (h0 n : ℕ) (s : Session) : Prop :=
  s.phase = Phase.playing ∧ s.score = 0 ∧ s.highScore = h0 ∧
    s.game.pipes = [] ∧ s.game.frameCount = n ∧
    s.game.player.x = 150 ∧
    s.game.player.y = 300 - (19 / 2 : ℚ) * n ∧
    s.game.player.width = 40 ∧ s.game.player.height = 40

lemma jtRound_integrate (h0 n : ℕ) (s : Session) (hinv : jtInv h0 n s) :
    tickPlayer (jumpSession s) =
      ⟨150, 300 - (19 / 2 : ℚ) * ((n : ℚ) + 1), 40, 40, -(19 / 2 : ℚ)⟩ := by
  obtain ⟨hph, -, -, -, -, hx, hy, hw, hh⟩ := hinv
  unfold tickPlayer
  rw [jumpSession_player s hph, hx, hy, hw, hh]
  unfold integratePlayer
  have hcond : ¬ (JUMP_FORCE + GRAVITY > MAX_FALL_SPEED) := by
    norm_num [JUMP_FORCE, GRAVITY, MAX_FALL_SPEED]
  dsimp only
  rw [if_neg hcond]
  norm_num [JUMP_FORCE, GRAVITY]
  ring

lemma jtRound_step (h0 n : ℕ) (s : Session) (hinv : jtInv h0 n s)
    (hn : n + 1 ≤ 31) : jtInv h0 (n + 1) (roundJT s) := by
  have htp := jtRound_integrate h0 n s hinv
  obtain ⟨hph, hsc, hhs, hpipes, hfc, -, -, -, -⟩ := hinv
  have hn31 : ((n : ℚ) + 1) ≤ 31 := by exact_mod_cast hn
  have hph1 : (jumpSession s).phase = Phase.playing := by
    rw [jumpSession_phase]; exact hph
  have hpipes1 : (jumpSession s).game.pipes = [] := by
    rw [jumpSession_game_pipes]; exact hpipes
  have hfc1 : (jumpSession s).game.frameCount + 1 < 140 := by
    rw [jumpSession_game_frameCount, hfc]; omega
  have hy1 : ¬ (tickPlayer (jumpSession s)).y < 0 := by
    rw [htp]
    push_neg
    show (0 : ℚ) ≤ 300 - 19 / 2 * ((n : ℚ) + 1)
    nlinarith
  have hsoup1 : ¬ soupCollides (tickPlayer (jumpSession s))
      (tickFrame (jumpSession s)) := by
    apply not_soupCollides
    rw [htp]
    show 300 - (19 / 2 : ℚ) * ((n : ℚ) + 1) + 40 < 524
    have hn0 : (0 : ℚ) ≤ (n : ℚ) := by positivity
    nlinarith
  obtain ⟨gph, gsc, ghs, gpl, gpipes, gfc⟩ :=
    tick_empty_clear halfRand (jumpSession s) hph1 hpipes1 hfc1 hy1 hsoup1
  have hj : roundJT s = tickGame halfRand (jumpSession s) := rfl
  refine ⟨by rw [hj, gph], ?_, ?_, by rw [hj, gpipes], ?_, ?_, ?_, ?_, ?_⟩
  · rw [hj, gsc, jumpSession_score, hsc]
  · rw [hj, ghs, jumpSession_highScore, hhs]
  · rw [hj, gfc, jumpSession_game_frameCount, hfc]
  · rw [hj, gpl, htp]
  · rw [hj, gpl, htp]
    push_cast
    ring
  · rw [hj, gpl, htp]
  · rw [hj, gpl, htp]

lemma jtRound_final (h0 : ℕ) (s : Session) (hinv : jtInv h0 31 s) :
    (roundJT s).phase = Phase.gameOver ∧ (roundJT s).score = 0 ∧
      (roundJT s).highScore = h0 := by
  have htp := jtRound_integrate h0 31 s hinv
  obtain ⟨hph, hsc, hhs, hpipes, hfc, -, -, -, -⟩ := hinv
  have hph1 : (jumpSession s).phase = Phase.playing := by
    rw [jumpSession_phase]; exact hph
  have hpipes1 : (jumpSession s).game.pipes = [] := by
    rw [jumpSession_game_pipes]; exact hpipes
  have hfc1 : (jumpSession s).game.frameCount + 1 < 140 := by
    rw [jumpSession_game_frameCount, hfc]; omega
  have hy1 : (tickPlayer (jumpSession s)).y < 0 := by
    rw [htp]
    show 300 - (19 / 2 : ℚ) * ((31 : ℕ) + 1 : ℚ) < 0
    norm_num
  obtain ⟨gph, gsc, ghs, -, -, -⟩ :=
    tick_empty_ceiling halfRand (jumpSession s) hph1 hpipes1 hfc1 hy1
  have hj : roundJT s = tickGame halfRand (jumpSession s) := rfl
  refine ⟨by rw [hj, gph], ?_, ?_⟩
  · rw [hj, gsc, jumpSession_score, hsc]
  · rw [hj, ghs, jumpSession_highScore, jumpSession_score, hhs, hsc]
    omega

lemma jtRun_inv (h0 : ℕ) : ∀ (n m : ℕ) (s : Session), jtInv h0 m s →
    m + n ≤ 31 → jtInv h0 (m + n) (applyEvs (jtRun n) s) := by
  intro n
  induction n with
  | zero =>
    intro m s hinv hmn
    simpa using hinv
  | succ n ih =>
    intro m s hinv hmn
    rw [applyEvs_jtRun_succ]
    have h1 : jtInv h0 (m + 1) (roundJT s) :=
      jtRound_step h0 m s hinv (by omega)
    have h2 := ih (m + 1) (roundJT s) h1 (by omega)
    have heq : m + (n + 1) = m + 1 + n := by omega
    rw [heq]
    exact h2

lemma startGame_inv (s : Session) : jtInv s.highScore 0 (startGame s) := by
  refine ⟨rfl, rfl, rfl, rfl, rfl, rfl, ?_, rfl, rfl⟩
  show GAME_HEIGHT / 2 = 300 - (19 / 2 : ℚ) * ((0 : ℕ) : ℚ)
  norm_num [GAME_HEIGHT]

set_option maxRecDepth 4000 in
set_option maxHeartbeats 1000000 in
/-- The 32-round jump-every-tick run always ends in a ceiling collision on
round 32, with score 0 and the high score untouched. -/
lemma jt_terminal (s : Session) :
    (applyEvs (jtRun 32) (startGame s)).phase = Phase.gameOver ∧
      (applyEvs (jtRun 32) (startGame s)).score = 0 ∧
      (applyEvs (jtRun 32) (startGame s)).highScore = s.highScore := by
  have h31 := jtRun_inv s.highScore 31 0 (startGame s) (startGame_inv s)
    (by omega)
  have h31b : jtInv s.highScore 31 (applyEvs (jtRun 31) (startGame s)) := by
    simpa using h31
  have h32 : jtRun 32 = jtRun 31 ++ [Ev.jump, Ev.tick halfRand] :=
    jtRun_snoc 31
  have hstep : applyEvs [Ev.jump, Ev.tick halfRand]
      (applyEvs (jtRun 31) (startGame s)) =
      roundJT (applyEvs (jtRun 31) (startGame s)) := by
    rw [applyEvs_cons, applyEvs_cons, applyEvs_nil]
    rfl
  rw [h32, applyEvs_append, hstep]
  exact jtRound_final s.highScore (applyEvs (jtRun 31) (startGame s)) h31b

/-- The concrete two-session input list: 32 rounds of jump-then-tick. -/
def c7run : List Ev := jtRun 32

/-- C7 witness: running the 32-round input list twice back-to-back, both
sessions end in `gameOver` with score 0; the terminal ceiling ticks score
nothing, so the captured scores equal the final scores and the restored
case of the amended law yields `highScore = max score1 score2`. -/
theorem high_score_two_sessions_witness :
    (firstSession c7run).phase = Phase.gameOver ∧
      (secondSession c7run c7run).phase = Phase.gameOver ∧
      (firstSession c7run).score = 0 ∧
      (secondSession c7run c7run).score = 0 ∧
      (secondSession c7run c7run).highScore =
        max (firstSession c7run).score (secondSession c7run c7run).score := by
  have h1 := jt_terminal initialSession
  have h2 := jt_terminal (firstSession c7run)
  obtain ⟨c1, c2, hc1le, hc2le, hh1, hh2, hres⟩ :=
    (high_score_folds_stale_score c7run c7run halfRand
      initialSession Ev.jump).2.2 h1.1 h2.1
  have h1s : (firstSession c7run).score = 0 := h1.2.1
  have h2s : (secondSession c7run c7run).score = 0 := h2.2.1
  have he1 : c1 = (firstSession c7run).score := by omega
  have he2 : c2 = (secondSession c7run c7run).score := by omega
  exact ⟨h1.1, h2.1, h1s, h2s, hres he1 he2⟩

/-- The jump-free velocity trajectory: gravity each tick, clamped at the
maximum fall speed. -/
def vAt : ℕ → ℚ
  | 0 => 0
  | n + 1 =>
    if vAt n + GRAVITY > MAX_FALL_SPEED then MAX_FALL_SPEED
    else vAt n + GRAVITY

/-- The jump-free vertical position trajectory from the spawn height. -/
def yAt : ℕ → ℚ
  | 0 => GAME_HEIGHT / 2
  | n + 1 => yAt n + vAt (n + 1)

/-- The soup-collision condition of the jump-free run at tick `t`, sampled
at the player's center x = 170. -/
def noJumpSoupHit (t : ℕ) : Prop :=
  ((yAt t : ℚ) : ℝ) + 40 > soupSurfaceYAt 170 (t : ℝ)

lemma vAt_nonneg (n : ℕ) : 0 ≤ vAt n := by
  induction n with
  | zero => exact le_refl 0
  | succ n ih =>
    show (0 : ℚ) ≤ if vAt n + GRAVITY > MAX_FALL_SPEED then MAX_FALL_SPEED
      else vAt n + GRAVITY
    split
    · norm_num [MAX_FALL_SPEED]
    · have : (0 : ℚ) < GRAVITY := by norm_num [GRAVITY]
      linarith

lemma yAt_ge (n : ℕ) : 300 ≤ yAt n := by
  induction n with
  | zero =>
    show (300 : ℚ) ≤ GAME_HEIGHT / 2
    norm_num [GAME_HEIGHT]
  | succ n ih =>
    show (300 : ℚ) ≤ yAt n + vAt (n + 1)
    have := vAt_nonneg (n + 1)
    linarith

lemma integrate_noJump (n : ℕ) :
    integratePlayer ⟨150, yAt n, 40, 40, vAt n⟩ =
      ⟨150, yAt (n + 1), 40, 40, vAt (n + 1)⟩ := rfl

lemma soupCollides_noJump_iff (t : ℕ) (v : ℚ) :
    soupCollides ⟨150, yAt t, 40, 40, v⟩ t ↔ noJumpSoupHit t := by
  unfold soupCollides noJumpSoupHit
  dsimp only
  have h1 : ((yAt t + 40 : ℚ) : ℝ) = ((yAt t : ℚ) : ℝ) + 40 := by
    push_cast
    ring
  have h2 : ((150 + 40 / 2 : ℚ) : ℝ) = 170 := by norm_num
  rw [h1, h2]

/-- The state of the jump-free run after `t` non-terminal ticks. -/
def noJumpInv (os : ℕ → TickRand) (t : ℕ) : Prop :=
  (runTicks os t (startGame initialSession)).phase = Phase.playing ∧
    (runTicks os t (startGame initialSession)).score = 0 ∧
    (runTicks os t (startGame initialSession)).game.pipes = [] ∧
    (runTicks os t (startGame initialSession)).game.frameCount = t ∧
    (runTicks os t (startGame initialSession)).game.player =
      ⟨150, yAt t, 40, 40, vAt t⟩

lemma noJumpInv_zero (os : ℕ → TickRand) : noJumpInv os 0 :=
  ⟨rfl, rfl, rfl, rfl, rfl⟩

lemma noJumpInv_step (os : ℕ → TickRand) (t : ℕ) (h : noJumpInv os t)
    (hfc : t + 1 < 140) (hmiss : ¬ noJumpSoupHit (t + 1)) :
    noJumpInv os (t + 1) := by
  obtain ⟨hph, hsc, hpipes, hfc0, hpl⟩ := h
  set s := runTicks os t (startGame initialSession) with hs
  have htp : tickPlayer s = ⟨150, yAt (t + 1), 40, 40, vAt (t + 1)⟩ := by
    unfold tickPlayer
    rw [hpl]
    exact integrate_noJump t
  have hy : ¬ (tickPlayer s).y < 0 := by
    rw [htp]
    push_neg
    show (0 : ℚ) ≤ yAt (t + 1)
    linarith [yAt_ge (t + 1)]
  have hsoup : ¬ soupCollides (tickPlayer s) (tickFrame s) := by
    rw [htp]
    unfold tickFrame
    rw [hfc0, soupCollides_noJump_iff]
    exact hmiss
  have hcl := tick_empty_clear (os t) s hph hpipes
    (by rw [hfc0]; exact hfc) hy hsoup
  refine ⟨?_, ?_, ?_, ?_, ?_⟩
  · show (tickGame (os t) s).phase = Phase.playing
    exact hcl.1
  · show (tickGame (os t) s).score = 0
    rw [hcl.2.1, hsc]
  · show (tickGame (os t) s).game.pipes = []
    exact hcl.2.2.2.2.1
  · show (tickGame (os t) s).game.frameCount = t + 1
    rw [hcl.2.2.2.2.2, hfc0]
  · show (tickGame (os t) s).game.player = _
    rw [hcl.2.2.2.1, htp]

lemma noJump_terminal (os : ℕ → TickRand) (t : ℕ) (h : noJumpInv os t)
    (hfc : t + 1 < 140) (hhit : noJumpSoupHit (t + 1)) :
    (runTicks os (t + 1) (startGame initialSession)).phase =
        Phase.gameOver ∧
      (runTicks os (t + 1) (startGame initialSession)).score = 0 ∧
      (runTicks os (t + 1) (startGame initialSession)).game.player =
        ⟨150, yAt (t + 1), 40, 40, vAt (t + 1)⟩ := by
  obtain ⟨hph, hsc, hpipes, hfc0, hpl⟩ := h
  set s := runTicks os t (startGame initialSession) with hs
  have htp : tickPlayer s = ⟨150, yAt (t + 1), 40, 40, vAt (t + 1)⟩ := by
    unfold tickPlayer
    rw [hpl]
    exact integrate_noJump t
  have hy : ¬ (tickPlayer s).y < 0 := by
    rw [htp]
    push_neg
    show (0 : ℚ) ≤ yAt (t + 1)
    linarith [yAt_ge (t + 1)]
  have hsoup : soupCollides (tickPlayer s) (tickFrame s) := by
    rw [htp]
    unfold tickFrame
    rw [hfc0, soupCollides_noJump_iff]
    exact hhit
  have hcl := tick_empty_soup (os t) s hph hpipes
    (by rw [hfc0]; exact hfc) hy hsoup
  refine ⟨?_, ?_, ?_⟩
  · show (tickGame (os t) s).phase = Phase.gameOver
    exact hcl.1
  · show (tickGame (os t) s).score = 0
    rw [hcl.2.1, hsc]
  · show (tickGame (os t) s).game.player = _
    rw [hcl.2.2.2.1, htp]

lemma yAt_30 : yAt 30 = 522 := by
  norm_num [yAt, vAt, GAME_HEIGHT, GRAVITY, MAX_FALL_SPEED]

lemma noJumpSoupHit_30 : noJumpSoupHit 30 := by
  unfold noJumpSoupHit
  have hs := soup_surface_le 170 ((30 : ℕ) : ℝ)
  rw [yAt_30]
  push_cast at hs ⊢
  linarith

lemma noJumpSoupHit_not_0 : ¬ noJumpSoupHit 0 := by
  unfold noJumpSoupHit
  push_neg
  have hs := soup_surface_ge 170 ((0 : ℕ) : ℝ)
  have hy : yAt 0 = 300 := by norm_num [yAt, GAME_HEIGHT]
  rw [hy]
  push_cast at hs ⊢
  linarith

/-- C8: a fresh session (player at y = 300 with velocity 0, frame 0,
score 0) run with zero jumps, over any random stream, ends in `gameOver`
within 50 ticks, exactly at the first tick T whose post-integration
position satisfies `yAt T + 40 > soupSurfaceYAt 170 T`; every earlier tick
is still playing, the player follows the `yAt` trajectory, and the final
score is 0. -/
theorem no_jump_session_terminates (os : ℕ → TickRand) :
    (startGame initialSession).game.player = ⟨150, 300, 40, 40, 0⟩ ∧
    (startGame initialSession).score = 0 ∧
    (startGame initialSession).game.frameCount = 0 ∧
    ∃ T, T ≤ 50 ∧ noJumpSoupHit T ∧
      (∀ t, t < T → ¬ noJumpSoupHit t) ∧
      (∀ t, t < T →
        (runTicks os t (startGame initialSession)).phase = Phase.playing) ∧
      (∀ t, t ≤ T →
        (runTicks os t (startGame initialSession)).game.player.y = yAt t) ∧
      (runTicks os T (startGame initialSession)).phase = Phase.gameOver ∧
      (runTicks os T (startGame initialSession)).score = 0 := by
  classical
  refine ⟨?_, rfl, rfl, ?_⟩
  · show initialPlayer = _
    unfold initialPlayer
    norm_num [GAME_HEIGHT, PLAYER_SIZE]
  have hex : ∃ t, noJumpSoupHit t := ⟨30, noJumpSoupHit_30⟩
  have hT30 : Nat.find hex ≤ 30 := Nat.find_min' hex noJumpSoupHit_30
  have hinv : ∀ t, t < Nat.find hex → noJumpInv os t := by
    intro t
    induction t with
    | zero => exact fun _ => noJumpInv_zero os
    | succ t ih =>
      intro hlt
      have h0 := ih (Nat.lt_of_succ_lt hlt)
      exact noJumpInv_step os t h0 (by omega) (Nat.find_min hex hlt)
  have hTpos : Nat.find hex ≠ 0 := by
    intro h0
    exact noJumpSoupHit_not_0 (h0 ▸ Nat.find_spec hex)
  obtain ⟨t0, hT0⟩ : ∃ t0, Nat.find hex = t0 + 1 :=
    ⟨Nat.find hex - 1, by omega⟩
  have hinv0 : noJumpInv os t0 := hinv t0 (by omega)
  have hterm := noJump_terminal os t0 hinv0 (by omega)
    (by rw [← hT0]; exact Nat.find_spec hex)
  refine ⟨Nat.find hex, by omega, Nat.find_spec hex,
    fun t ht => Nat.find_min hex ht, fun t ht => (hinv t ht).1, ?_, ?_, ?_⟩
  · intro t ht
    rcases Nat.lt_or_ge t (Nat.find hex) with hlt | hge
    · rw [(hinv t hlt).2.2.2.2]
    · have : t = Nat.find hex := le_antisymm ht hge
      rw [this, hT0, hterm.2.2]
  · rw [hT0]
    exact hterm.1
  · rw [hT0]
    exact hterm.2.1
